import Mathlib

/-!
Verification of the libvarlink specification against the sources.

Part 1 embeds the error-code machinery of `src/lib/varlink.h` (the
`VARLINK_ERROR_*` enum) and `src/lib/error.c` (`error_strings`,
`varlink_error_string`).
-/

/-- Enum constant from src/lib/varlink.h line 17. -/
def VARLINK_ERROR_PANIC : Int := 1

/-- Enum constant from src/lib/varlink.h line 18. -/
def VARLINK_ERROR_INVALID_INTERFACE : Int := 2

/-- Enum constant from src/lib/varlink.h line 19. -/
def VARLINK_ERROR_INVALID_ADDRESS : Int := 3

/-- Enum constant from src/lib/varlink.h line 20. -/
def VARLINK_ERROR_INVALID_IDENTIFIER : Int := 4

/-- Enum constant from src/lib/varlink.h line 21. -/
def VARLINK_ERROR_INVALID_TYPE : Int := 5

/-- Enum constant from src/lib/varlink.h line 22. -/
def VARLINK_ERROR_INTERFACE_NOT_FOUND : Int := 6

/-- Enum constant from src/lib/varlink.h line 23. -/
def VARLINK_ERROR_METHOD_NOT_FOUND : Int := 7

/-- Enum constant from src/lib/varlink.h line 24. -/
def VARLINK_ERROR_CANNOT_CONNECT : Int := 8

/-- Enum constant from src/lib/varlink.h line 25. -/
def VARLINK_ERROR_CANNOT_LISTEN : Int := 9

/-- Enum constant from src/lib/varlink.h line 26. -/
def VARLINK_ERROR_CANNOT_ACCEPT : Int := 10

/-- Enum constant from src/lib/varlink.h line 27. -/
def VARLINK_ERROR_SENDING_MESSAGE : Int := 11

/-- Enum constant from src/lib/varlink.h line 28. -/
def VARLINK_ERROR_RECEIVING_MESSAGE : Int := 12

/-- Enum constant from src/lib/varlink.h line 29. -/
def VARLINK_ERROR_INVALID_INDEX : Int := 13

/-- Enum constant from src/lib/varlink.h line 30. -/
def VARLINK_ERROR_UNKNOWN_FIELD : Int := 14

/-- Enum constant from src/lib/varlink.h line 31. -/
def VARLINK_ERROR_READ_ONLY : Int := 15

/-- Enum constant from src/lib/varlink.h line 32. -/
def VARLINK_ERROR_INVALID_JSON : Int := 16

/-- Enum constant from src/lib/varlink.h line 33. -/
def VARLINK_ERROR_INVALID_MESSAGE : Int := 17

/-- Enum constant from src/lib/varlink.h line 34. -/
def VARLINK_ERROR_INVALID_CALL : Int := 18

/-- Enum constant from src/lib/varlink.h line 35. -/
def VARLINK_ERROR_ACCESS_DENIED : Int := 19

/-- Enum constant from src/lib/varlink.h line 36. -/
def VARLINK_ERROR_CONNECTION_CLOSED : Int := 20

/-- Enum constant from src/lib/varlink.h line 37: one past the last error code. -/
def VARLINK_ERROR_MAX : Int := 21

/-- The designated-initializer array `error_strings` of src/lib/error.c lines
4-25, embedded as a list of optional entries: index 0 carries no initializer
(a `NULL` pointer in C, here `none`), indices 1..20 carry the string named by
the corresponding `VARLINK_ERROR_*` designator.  The list length is the C
`ARRAY_SIZE`, i.e. one past the largest designated index
(`VARLINK_ERROR_CONNECTION_CLOSED` = 20). -/
def error_strings : List (Option String) :=
  [none,
   some "Panic",
   some "InvalidInterface",
   some "InvalidAddress",
   some "InvalidIdentifier",
   some "InvalidType",
   some "InterfaceNotFound",
   some "MethodNotFound",
   some "CannotConnect",
   some "CannotListen",
   some "CannotAccept",
   some "SendingMessage",
   some "ReceivingMessage",
   some "InvalidIndex",
   some "UnknownField",
   some "ReadOnly",
   some "InvalidJson",
   some "InvalidMessage",
   some "InvalidCall",
   some "AccessDenied",
   some "ConnectionClosed"]

/-- `varlink_error_string` of src/lib/error.c lines 27-35: inputs at most 0 or
at least `ARRAY_SIZE(error_strings)` yield `"<invalid>"`; an in-range index
whose table entry is the null pointer yields `"<missing>"`; otherwise the table
entry itself is returned. -/
def varlink_error_string (error : Int) : String :=
  if error ≤ 0 ∨ (error_strings.length : Int) ≤ error then "<invalid>"
  else
    match error_strings.getD error.toNat none with
    | none => "<missing>"
    | some s => s

/-- Claim C1: for every error code in the closed twenty-element set,
`varlink_error_string` returns the code's stable human-readable identifier,
the CamelCase form of the constant name without the `VARLINK_ERROR_` prefix. -/
theorem claim1_error_string_of_each_code :
    varlink_error_string VARLINK_ERROR_PANIC = "Panic" ∧
    varlink_error_string VARLINK_ERROR_INVALID_INTERFACE = "InvalidInterface" ∧
    varlink_error_string VARLINK_ERROR_INVALID_ADDRESS = "InvalidAddress" ∧
    varlink_error_string VARLINK_ERROR_INVALID_IDENTIFIER = "InvalidIdentifier" ∧
    varlink_error_string VARLINK_ERROR_INVALID_TYPE = "InvalidType" ∧
    varlink_error_string VARLINK_ERROR_INTERFACE_NOT_FOUND = "InterfaceNotFound" ∧
    varlink_error_string VARLINK_ERROR_METHOD_NOT_FOUND = "MethodNotFound" ∧
    varlink_error_string VARLINK_ERROR_CANNOT_CONNECT = "CannotConnect" ∧
    varlink_error_string VARLINK_ERROR_CANNOT_LISTEN = "CannotListen" ∧
    varlink_error_string VARLINK_ERROR_CANNOT_ACCEPT = "CannotAccept" ∧
    varlink_error_string VARLINK_ERROR_INVALID_INDEX = "InvalidIndex" ∧
    varlink_error_string VARLINK_ERROR_UNKNOWN_FIELD = "UnknownField" ∧
    varlink_error_string VARLINK_ERROR_READ_ONLY = "ReadOnly" ∧
    varlink_error_string VARLINK_ERROR_INVALID_JSON = "InvalidJson" ∧
    varlink_error_string VARLINK_ERROR_SENDING_MESSAGE = "SendingMessage" ∧
    varlink_error_string VARLINK_ERROR_RECEIVING_MESSAGE = "ReceivingMessage" ∧
    varlink_error_string VARLINK_ERROR_INVALID_MESSAGE = "InvalidMessage" ∧
    varlink_error_string VARLINK_ERROR_INVALID_CALL = "InvalidCall" ∧
    varlink_error_string VARLINK_ERROR_CONNECTION_CLOSED = "ConnectionClosed" ∧
    varlink_error_string VARLINK_ERROR_ACCESS_DENIED = "AccessDenied" := by
  decide

/-- Claim C2: the codes strictly between 0 and `VARLINK_ERROR_MAX` are exactly
the twenty constants the spec lists — none outside the set, none missing, and
the twenty constants are pairwise distinct. -/
theorem claim2_error_code_set :
    (∀ e : Int, (0 < e ∧ e < VARLINK_ERROR_MAX) ↔
      (e = VARLINK_ERROR_PANIC ∨ e = VARLINK_ERROR_INVALID_INTERFACE ∨
       e = VARLINK_ERROR_INVALID_ADDRESS ∨ e = VARLINK_ERROR_INVALID_IDENTIFIER ∨
       e = VARLINK_ERROR_INVALID_TYPE ∨ e = VARLINK_ERROR_INTERFACE_NOT_FOUND ∨
       e = VARLINK_ERROR_METHOD_NOT_FOUND ∨ e = VARLINK_ERROR_CANNOT_CONNECT ∨
       e = VARLINK_ERROR_CANNOT_LISTEN ∨ e = VARLINK_ERROR_CANNOT_ACCEPT ∨
       e = VARLINK_ERROR_INVALID_INDEX ∨ e = VARLINK_ERROR_UNKNOWN_FIELD ∨
       e = VARLINK_ERROR_READ_ONLY ∨ e = VARLINK_ERROR_INVALID_JSON ∨
       e = VARLINK_ERROR_SENDING_MESSAGE ∨ e = VARLINK_ERROR_RECEIVING_MESSAGE ∨
       e = VARLINK_ERROR_INVALID_MESSAGE ∨ e = VARLINK_ERROR_INVALID_CALL ∨
       e = VARLINK_ERROR_CONNECTION_CLOSED ∨ e = VARLINK_ERROR_ACCESS_DENIED)) ∧
    [VARLINK_ERROR_PANIC, VARLINK_ERROR_INVALID_INTERFACE,
     VARLINK_ERROR_INVALID_ADDRESS, VARLINK_ERROR_INVALID_IDENTIFIER,
     VARLINK_ERROR_INVALID_TYPE, VARLINK_ERROR_INTERFACE_NOT_FOUND,
     VARLINK_ERROR_METHOD_NOT_FOUND, VARLINK_ERROR_CANNOT_CONNECT,
     VARLINK_ERROR_CANNOT_LISTEN, VARLINK_ERROR_CANNOT_ACCEPT,
     VARLINK_ERROR_INVALID_INDEX, VARLINK_ERROR_UNKNOWN_FIELD,
     VARLINK_ERROR_READ_ONLY, VARLINK_ERROR_INVALID_JSON,
     VARLINK_ERROR_SENDING_MESSAGE, VARLINK_ERROR_RECEIVING_MESSAGE,
     VARLINK_ERROR_INVALID_MESSAGE, VARLINK_ERROR_INVALID_CALL,
     VARLINK_ERROR_CONNECTION_CLOSED, VARLINK_ERROR_ACCESS_DENIED].Nodup := by
  constructor
  · intro e
    simp only [VARLINK_ERROR_PANIC, VARLINK_ERROR_INVALID_INTERFACE,
      VARLINK_ERROR_INVALID_ADDRESS, VARLINK_ERROR_INVALID_IDENTIFIER,
      VARLINK_ERROR_INVALID_TYPE, VARLINK_ERROR_INTERFACE_NOT_FOUND,
      VARLINK_ERROR_METHOD_NOT_FOUND, VARLINK_ERROR_CANNOT_CONNECT,
      VARLINK_ERROR_CANNOT_LISTEN, VARLINK_ERROR_CANNOT_ACCEPT,
      VARLINK_ERROR_INVALID_INDEX, VARLINK_ERROR_UNKNOWN_FIELD,
      VARLINK_ERROR_READ_ONLY, VARLINK_ERROR_INVALID_JSON,
      VARLINK_ERROR_SENDING_MESSAGE, VARLINK_ERROR_RECEIVING_MESSAGE,
      VARLINK_ERROR_INVALID_MESSAGE, VARLINK_ERROR_INVALID_CALL,
      VARLINK_ERROR_CONNECTION_CLOSED, VARLINK_ERROR_ACCESS_DENIED,
      VARLINK_ERROR_MAX]
    omega
  · decide

/-- Claim C10: `varlink_error_string` is total and the `"<missing>"` branch is
dead — out-of-range inputs give `"<invalid>"`, every in-range index has a
non-null `error_strings` entry, and no input at all produces `"<missing>"`. -/
theorem claim10_error_string_total (e : Int) :
    ((e ≤ 0 ∨ VARLINK_ERROR_MAX ≤ e) → varlink_error_string e = "<invalid>") ∧
    (0 < e → e < VARLINK_ERROR_MAX →
      (error_strings.getD e.toNat none).isSome = true) ∧
    varlink_error_string e ≠ "<missing>" := by
  have hlen : (error_strings.length : Int) = VARLINK_ERROR_MAX := rfl
  refine ⟨?_, ?_, ?_⟩
  · intro h
    unfold varlink_error_string
    rw [if_pos]
    rw [hlen]
    exact h
  · intro h1 h2
    simp only [VARLINK_ERROR_MAX] at h2
    interval_cases e <;> decide
  · rcases le_or_lt e 0 with h0 | h0
    · unfold varlink_error_string
      rw [if_pos (Or.inl h0)]
      decide
    · rcases lt_or_le e VARLINK_ERROR_MAX with h1 | h1
      · simp only [VARLINK_ERROR_MAX] at h1
        interval_cases e <;> decide
      · unfold varlink_error_string
        rw [if_pos (Or.inr (hlen ▸ h1))]
        decide

/-- Witness for C10: the theorem applied at the concrete out-of-range input 21
and at the concrete in-range input 5. -/
theorem claim10_error_string_total_witness :
    varlink_error_string 21 = "<invalid>" ∧
    (error_strings.getD (5 : Int).toNat none).isSome = true ∧
    varlink_error_string 5 ≠ "<missing>" :=
  ⟨(claim10_error_string_total 21).1 (by decide),
   (claim10_error_string_total 5).2.1 (by decide) (by decide),
   (claim10_error_string_total 5).2.2⟩

/-!
Part 2: the Value data model (spec section 3) and the typed accessors of
`VarlinkObject` and `VarlinkArray`.  The header `src/lib/varlink.h` declares
these functions; the implementation file (`object.c`/`array.c`) is not part of
the provided sources, so the accessor bodies are modelled from the spec.
-/

/-- Modelled from the spec: the recursive JSON-like `Value` of spec section 3
("a tagged union of Null | Bool | Int64 | Float64 | String | Array | Object";
the implementing file is absent from src/).  `Object` keeps insertion order as
a field-name/value association list; `Array` is an ordered list.  A `Float64`
leaf is modelled as an exact decimal number, mantissa times ten to the power
of the exponent, because the sources do not fix a binary64 text format.
Strings are lists of characters. -/
inductive Value where
  | vnull : Value
  | vbool (b : Bool) : Value
  | vint (i : Int) : Value
  | vfloat (m : Int) (e : Int) : Value
  | vstring (s : List Char) : Value
  | varray (elems : List Value) : Value
  | vobject (fields : List (List Char × Value)) : Value

/-- A `VarlinkObject` is the field list of an object `Value`. -/
abbrev VObject : Type := List (List Char × Value)

/-- A `VarlinkArray` is the element list of an array `Value`. -/
abbrev VArray : Type := List Value

/-- Modelled from the spec: field lookup inside a `VarlinkObject` (the object
implementation file is absent from src/); returns the first binding of the
requested name, `none` when the object has no such field. -/
def findField : VObject → List Char → Option Value
  | [], _ => none
  | (k, v) :: rest, name => if k = name then some v else findField rest name

/-- Modelled from the spec: `varlink_object_get_bool` (declared at
src/lib/varlink.h line 161; body absent from src/).  Per spec section 4.1 a
missing field fails with `UnknownField`, a field of another JSON kind fails
with `InvalidType`, and no coercion happens.  As in C, failures are the
negated error constants. -/
def varlink_object_get_bool (object : VObject) (field : List Char) : Except Int Bool :=
  match findField object field with
  | none => .error (-VARLINK_ERROR_UNKNOWN_FIELD)
  | some (.vbool b) => .ok b
  | some _ => .error (-VARLINK_ERROR_INVALID_TYPE)

/-- Modelled from the spec: `varlink_object_get_int` (src/lib/varlink.h line
162; body absent from src/), same failure contract as the bool getter. -/
def varlink_object_get_int (object : VObject) (field : List Char) : Except Int Int :=
  match findField object field with
  | none => .error (-VARLINK_ERROR_UNKNOWN_FIELD)
  | some (.vint i) => .ok i
  | some _ => .error (-VARLINK_ERROR_INVALID_TYPE)

/-- Modelled from the spec: `varlink_object_get_float` (src/lib/varlink.h line
163; body absent from src/), same failure contract; only a float-kind field is
returned, never an int-kind one. -/
def varlink_object_get_float (object : VObject) (field : List Char) : Except Int (Int × Int) :=
  match findField object field with
  | none => .error (-VARLINK_ERROR_UNKNOWN_FIELD)
  | some (.vfloat m e) => .ok (m, e)
  | some _ => .error (-VARLINK_ERROR_INVALID_TYPE)

/-- Modelled from the spec: `varlink_object_get_string` (src/lib/varlink.h
line 164; body absent from src/), same failure contract. -/
def varlink_object_get_string (object : VObject) (field : List Char) : Except Int (List Char) :=
  match findField object field with
  | none => .error (-VARLINK_ERROR_UNKNOWN_FIELD)
  | some (.vstring s) => .ok s
  | some _ => .error (-VARLINK_ERROR_INVALID_TYPE)

/-- Modelled from the spec: `varlink_object_get_array` (src/lib/varlink.h line
165; body absent from src/), same failure contract. -/
def varlink_object_get_array (object : VObject) (field : List Char) : Except Int VArray :=
  match findField object field with
  | none => .error (-VARLINK_ERROR_UNKNOWN_FIELD)
  | some (.varray elems) => .ok elems
  | some _ => .error (-VARLINK_ERROR_INVALID_TYPE)

/-- Modelled from the spec: `varlink_object_get_object` (src/lib/varlink.h
line 166; body absent from src/), same failure contract. -/
def varlink_object_get_object (object : VObject) (field : List Char) : Except Int VObject :=
  match findField object field with
  | none => .error (-VARLINK_ERROR_UNKNOWN_FIELD)
  | some (.vobject fields) => .ok fields
  | some _ => .error (-VARLINK_ERROR_INVALID_TYPE)

/-- `varlink_array_get_n_elements` (src/lib/varlink.h line 206). -/
def varlink_array_get_n_elements (array : VArray) : Nat := array.length

/-- Modelled from the spec: `varlink_array_get_bool` (src/lib/varlink.h line
213; body absent from src/).  Per spec section 4.1, index access is
bounds-checked and fails with `InvalidIndex` when out of range; an in-range
element of another kind fails with `InvalidType`.  The unchanged array is
returned alongside the result to record that the getter never mutates it. -/
def varlink_array_get_bool (array : VArray) (index : Nat) : Except Int Bool × VArray :=
  match array[index]? with
  | none => (.error (-VARLINK_ERROR_INVALID_INDEX), array)
  | some (.vbool b) => (.ok b, array)
  | some _ => (.error (-VARLINK_ERROR_INVALID_TYPE), array)

/-- Modelled from the spec: `varlink_array_get_int` (src/lib/varlink.h line
214; body absent from src/), same contract as the bool element getter. -/
def varlink_array_get_int (array : VArray) (index : Nat) : Except Int Int × VArray :=
  match array[index]? with
  | none => (.error (-VARLINK_ERROR_INVALID_INDEX), array)
  | some (.vint i) => (.ok i, array)
  | some _ => (.error (-VARLINK_ERROR_INVALID_TYPE), array)

/-- Modelled from the spec: `varlink_array_get_float` (src/lib/varlink.h line
215; body absent from src/), same contract. -/
def varlink_array_get_float (array : VArray) (index : Nat) : Except Int (Int × Int) × VArray :=
  match array[index]? with
  | none => (.error (-VARLINK_ERROR_INVALID_INDEX), array)
  | some (.vfloat m e) => (.ok (m, e), array)
  | some _ => (.error (-VARLINK_ERROR_INVALID_TYPE), array)

/-- Modelled from the spec: `varlink_array_get_string` (src/lib/varlink.h
line 216; body absent from src/), same contract. -/
def varlink_array_get_string (array : VArray) (index : Nat) : Except Int (List Char) × VArray :=
  match array[index]? with
  | none => (.error (-VARLINK_ERROR_INVALID_INDEX), array)
  | some (.vstring s) => (.ok s, array)
  | some _ => (.error (-VARLINK_ERROR_INVALID_TYPE), array)

/-- Modelled from the spec: `varlink_array_get_array` (src/lib/varlink.h line
217; body absent from src/), same contract. -/
def varlink_array_get_array (array : VArray) (index : Nat) : Except Int VArray × VArray :=
  match array[index]? with
  | none => (.error (-VARLINK_ERROR_INVALID_INDEX), array)
  | some (.varray elems) => (.ok elems, array)
  | some _ => (.error (-VARLINK_ERROR_INVALID_TYPE), array)

/-- Modelled from the spec: `varlink_array_get_object` (src/lib/varlink.h
line 218; body absent from src/), same contract. -/
def varlink_array_get_object (array : VArray) (index : Nat) : Except Int VObject × VArray :=
  match array[index]? with
  | none => (.error (-VARLINK_ERROR_INVALID_INDEX), array)
  | some (.vobject fields) => (.ok fields, array)
  | some _ => (.error (-VARLINK_ERROR_INVALID_TYPE), array)

/-- Kind discriminator: is this `Value` a bool? -/
def Value.isBool : Value → Bool
  | .vbool _ => true
  | _ => false

/-- Kind discriminator: is this `Value` an int? -/
def Value.isInt : Value → Bool
  | .vint _ => true
  | _ => false

/-- Kind discriminator: is this `Value` a float? -/
def Value.isFloat : Value → Bool
  | .vfloat _ _ => true
  | _ => false

/-- Kind discriminator: is this `Value` a string? -/
def Value.isString : Value → Bool
  | .vstring _ => true
  | _ => false

/-- Kind discriminator: is this `Value` an array? -/
def Value.isArray : Value → Bool
  | .varray _ => true
  | _ => false

/-- Kind discriminator: is this `Value` an object? -/
def Value.isObject : Value → Bool
  | .vobject _ => true
  | _ => false

/-- Claim C3: every typed object getter fails with `UnknownField` when the
object has no field of the requested name, fails with `InvalidType` when the
field exists but holds a value of a different JSON kind, and never coerces one
scalar kind into another (in particular an int field is never returned by the
float getter). -/
theorem claim3_object_typed_getters (o : VObject) (field : List Char) :
    (findField o field = none →
      varlink_object_get_bool o field = .error (-VARLINK_ERROR_UNKNOWN_FIELD) ∧
      varlink_object_get_int o field = .error (-VARLINK_ERROR_UNKNOWN_FIELD) ∧
      varlink_object_get_float o field = .error (-VARLINK_ERROR_UNKNOWN_FIELD) ∧
      varlink_object_get_string o field = .error (-VARLINK_ERROR_UNKNOWN_FIELD) ∧
      varlink_object_get_array o field = .error (-VARLINK_ERROR_UNKNOWN_FIELD) ∧
      varlink_object_get_object o field = .error (-VARLINK_ERROR_UNKNOWN_FIELD)) ∧
    (∀ v, findField o field = some v →
      (v.isBool = false →
        varlink_object_get_bool o field = .error (-VARLINK_ERROR_INVALID_TYPE)) ∧
      (v.isInt = false →
        varlink_object_get_int o field = .error (-VARLINK_ERROR_INVALID_TYPE)) ∧
      (v.isFloat = false →
        varlink_object_get_float o field = .error (-VARLINK_ERROR_INVALID_TYPE)) ∧
      (v.isString = false →
        varlink_object_get_string o field = .error (-VARLINK_ERROR_INVALID_TYPE)) ∧
      (v.isArray = false →
        varlink_object_get_array o field = .error (-VARLINK_ERROR_INVALID_TYPE)) ∧
      (v.isObject = false →
        varlink_object_get_object o field = .error (-VARLINK_ERROR_INVALID_TYPE)) ∧
      (∀ i, v = .vint i →
        varlink_object_get_float o field = .error (-VARLINK_ERROR_INVALID_TYPE))) := by
  constructor
  · intro h
    refine ⟨?_, ?_, ?_, ?_, ?_, ?_⟩ <;>
      simp [varlink_object_get_bool, varlink_object_get_int, varlink_object_get_float,
        varlink_object_get_string, varlink_object_get_array, varlink_object_get_object, h]
  · intro v h
    cases v <;>
      simp [varlink_object_get_bool, varlink_object_get_int, varlink_object_get_float,
        varlink_object_get_string, varlink_object_get_array, varlink_object_get_object,
        Value.isBool, Value.isInt, Value.isFloat, Value.isString, Value.isArray,
        Value.isObject, h]

/-- Witness for C3: on the concrete object with the single int field `a`, the
float getter refuses the int field with `InvalidType`, and a getter on the
absent field `b` fails with `UnknownField`. -/
theorem claim3_object_typed_getters_witness :
    varlink_object_get_float [(['a'], Value.vint 3)] ['a'] =
      .error (-VARLINK_ERROR_INVALID_TYPE) ∧
    varlink_object_get_bool [(['a'], Value.vint 3)] ['b'] =
      .error (-VARLINK_ERROR_UNKNOWN_FIELD) :=
  ⟨((claim3_object_typed_getters [(['a'], Value.vint 3)] ['a']).2
      (Value.vint 3) rfl).2.2.2.2.2.2 3 rfl,
   ((claim3_object_typed_getters [(['a'], Value.vint 3)] ['b']).1 rfl).1⟩

/-- Claim C4: every typed array element getter fails with `InvalidIndex` for an
index at or past the number of elements and leaves the array unchanged; for an
in-bounds index it never fails with `InvalidIndex`; and no getter ever
modifies the array. -/
theorem claim4_array_index_bounds (a : VArray) (index : Nat) :
    (varlink_array_get_n_elements a ≤ index →
      varlink_array_get_bool a index = (.error (-VARLINK_ERROR_INVALID_INDEX), a) ∧
      varlink_array_get_int a index = (.error (-VARLINK_ERROR_INVALID_INDEX), a) ∧
      varlink_array_get_float a index = (.error (-VARLINK_ERROR_INVALID_INDEX), a) ∧
      varlink_array_get_string a index = (.error (-VARLINK_ERROR_INVALID_INDEX), a) ∧
      varlink_array_get_array a index = (.error (-VARLINK_ERROR_INVALID_INDEX), a) ∧
      varlink_array_get_object a index = (.error (-VARLINK_ERROR_INVALID_INDEX), a)) ∧
    (index < varlink_array_get_n_elements a →
      (varlink_array_get_bool a index).1 ≠ .error (-VARLINK_ERROR_INVALID_INDEX) ∧
      (varlink_array_get_int a index).1 ≠ .error (-VARLINK_ERROR_INVALID_INDEX) ∧
      (varlink_array_get_float a index).1 ≠ .error (-VARLINK_ERROR_INVALID_INDEX) ∧
      (varlink_array_get_string a index).1 ≠ .error (-VARLINK_ERROR_INVALID_INDEX) ∧
      (varlink_array_get_array a index).1 ≠ .error (-VARLINK_ERROR_INVALID_INDEX) ∧
      (varlink_array_get_object a index).1 ≠ .error (-VARLINK_ERROR_INVALID_INDEX)) ∧
    ((varlink_array_get_bool a index).2 = a ∧
     (varlink_array_get_int a index).2 = a ∧
     (varlink_array_get_float a index).2 = a ∧
     (varlink_array_get_string a index).2 = a ∧
     (varlink_array_get_array a index).2 = a ∧
     (varlink_array_get_object a index).2 = a) := by
  refine ⟨?_, ?_, ?_⟩
  · intro h
    have hn : a[index]? = none := by
      rw [List.getElem?_eq_none_iff]
      exact h
    refine ⟨?_, ?_, ?_, ?_, ?_, ?_⟩ <;>
      simp [varlink_array_get_bool, varlink_array_get_int, varlink_array_get_float,
        varlink_array_get_string, varlink_array_get_array, varlink_array_get_object, hn]
  · intro h
    have hs : a[index]? = some a[index] := List.getElem?_eq_getElem h
    refine ⟨?_, ?_, ?_, ?_, ?_, ?_⟩ <;>
      · cases hv : a[index] <;>
          simp [varlink_array_get_bool, varlink_array_get_int, varlink_array_get_float,
            varlink_array_get_string, varlink_array_get_array, varlink_array_get_object,
            hs, hv, VARLINK_ERROR_INVALID_INDEX, VARLINK_ERROR_INVALID_TYPE]
  · cases hv : a[index]? with
    | none =>
      refine ⟨?_, ?_, ?_, ?_, ?_, ?_⟩ <;>
        simp [varlink_array_get_bool, varlink_array_get_int, varlink_array_get_float,
          varlink_array_get_string, varlink_array_get_array, varlink_array_get_object, hv]
    | some v =>
      cases v <;>
        refine ⟨?_, ?_, ?_, ?_, ?_, ?_⟩ <;>
          simp [varlink_array_get_bool, varlink_array_get_int, varlink_array_get_float,
            varlink_array_get_string, varlink_array_get_array, varlink_array_get_object, hv]

/-- Witness for C4: on the concrete one-element array `[true]`, index 1 is out
of range and fails with `InvalidIndex`, while index 0 is in range and does
not. -/
theorem claim4_array_index_bounds_witness :
    varlink_array_get_bool [Value.vbool true] 1 =
      (.error (-VARLINK_ERROR_INVALID_INDEX), [Value.vbool true]) ∧
    (varlink_array_get_bool [Value.vbool true] 0).1 ≠
      .error (-VARLINK_ERROR_INVALID_INDEX) :=
  ⟨((claim4_array_index_bounds [Value.vbool true] 1).1 (by decide)).1,
   ((claim4_array_index_bounds [Value.vbool true] 0).2.1 (by decide)).1⟩

/-!
Part 3: the service-side call state machine and the client-side connection
engine.  `src/lib/varlink.h` declares `varlink_call_reply`,
`varlink_call_reply_error`, `varlink_connection_call` and
`varlink_connection_close`; the implementing files (`service.c`,
`connection.c`, `object.c`) are absent from src/, so their behaviour is
modelled from spec sections 3, 4.4, 4.5 and 4.6.
-/

/-- Call flag from src/lib/varlink.h line 44. -/
def VARLINK_CALL_MORE : Nat := 1

/-- Call flag from src/lib/varlink.h line 45. -/
def VARLINK_CALL_ONEWAY : Nat := 2

/-- Reply flag from src/lib/varlink.h line 52. -/
def VARLINK_REPLY_CONTINUES : Nat := 1

/-- Modelled from the spec: the service-side `VarlinkCall` state (spec section
3; service.c is absent from src/): the flag bits the call was made with and
the `replied` boolean that enforces the reply-once invariant. -/
structure VCall where
  more : Bool
  oneway : Bool
  replied : Bool

/-- A reply frame as written to the wire (spec section 4.4): optional error
name, parameters, and the `continues` flag. -/
structure ReplyFrame where
  err : Option (List Char)
  parameters : VObject
  continues : Bool

/-- Modelled from the spec: `varlink_call_reply` (declared at
src/lib/varlink.h lines 349-351; service.c is absent from src/).  Spec 4.5: a
second terminal reply fails with `InvalidCall`; spec 8 (oneway): a oneway call
never produces a reply frame and never transitions to replied; spec 4.4: a
`continues` reply is only legal when the call carried the `more` flag.
Returns the C status, the updated call, and the frames written. -/
def varlink_call_reply (call : VCall) (parameters : VObject) (flags : Nat) :
    Int × VCall × List ReplyFrame :=
  if call.replied then (-VARLINK_ERROR_INVALID_CALL, call, [])
  else if call.oneway then (0, call, [])
  else if flags.testBit 0 then
    if call.more then (0, call, [⟨none, parameters, true⟩])
    else (-VARLINK_ERROR_INVALID_CALL, call, [])
  else (0, { call with replied := true }, [⟨none, parameters, false⟩])

/-- Modelled from the spec: `varlink_call_reply_error` (src/lib/varlink.h
lines 357-359; service.c is absent from src/).  The declaration takes no flag
argument, so an error reply is always terminal; otherwise it follows the same
reply-once and oneway rules as `varlink_call_reply`. -/
def varlink_call_reply_error (call : VCall) (err : List Char) (parameters : VObject) :
    Int × VCall × List ReplyFrame :=
  if call.replied then (-VARLINK_ERROR_INVALID_CALL, call, [])
  else if call.oneway then (0, call, [])
  else (0, { call with replied := true }, [⟨some err, parameters, false⟩])

/-- One reply operation a service handler can attempt on a call. -/
inductive CallOp where
  | reply (parameters : VObject) (flags : Nat) : CallOp
  | replyError (err : List Char) (parameters : VObject) : CallOp

/-- Run a sequence of reply operations against a call, collecting every frame
written to the wire. -/
def runCallOps : VCall → List CallOp → VCall × List ReplyFrame
  | call, [] => (call, [])
  | call, op :: ops =>
    let step :=
      match op with
      | .reply p f => varlink_call_reply call p f
      | .replyError e p => varlink_call_reply_error call e p
    let next := runCallOps step.2.1 ops
    (next.1, step.2.2 ++ next.2)

/-- Helper for C6: from a oneway call that has not replied, every reply
operation returns the call unchanged and writes nothing. -/
theorem runCallOps_oneway (call : VCall) (h1 : call.oneway = true)
    (h2 : call.replied = false) :
    ∀ ops : List CallOp, runCallOps call ops = (call, []) := by
  intro ops
  induction ops with
  | nil => rfl
  | cons op ops ih =>
    cases op with
    | reply p f =>
      simp only [runCallOps, varlink_call_reply, h1, h2, Bool.false_eq_true,
        if_false, if_true, ite_true, ite_false]
      simpa using ih
    | replyError e p =>
      simp only [runCallOps, varlink_call_reply_error, h1, h2, Bool.false_eq_true,
        if_false, if_true, ite_true, ite_false]
      simpa using ih

/-- Claim C6: a call made with the ONEWAY flag never causes a reply frame to
be written, and the service-side call object never reaches the replied state,
whatever sequence of reply operations the handler attempts. -/
theorem claim6_oneway_never_replies (call : VCall) (ops : List CallOp)
    (h1 : call.oneway = true) (h2 : call.replied = false) :
    (runCallOps call ops).2 = [] ∧ (runCallOps call ops).1.replied = false := by
  rw [runCallOps_oneway call h1 h2 ops]
  exact ⟨rfl, h2⟩

/-- Witness for C6: a concrete oneway call on which the handler attempts both
a normal reply and an error reply; nothing reaches the wire. -/
theorem claim6_oneway_never_replies_witness :
    (runCallOps ⟨false, true, false⟩
      [.reply [] 0, .replyError ['E'] []]).2 = [] ∧
    (runCallOps ⟨false, true, false⟩
      [.reply [] 0, .replyError ['E'] []]).1.replied = false :=
  claim6_oneway_never_replies ⟨false, true, false⟩
    [.reply [] 0, .replyError ['E'] []] rfl rfl

/-- Count of terminal (non-`continues`) frames in a wire trace. -/
def terminalFrames (frames : List ReplyFrame) : Nat :=
  (frames.filter (fun f => !f.continues)).length

/-- Helper for C7: over any operation sequence a call emits at most one
terminal frame, and none at all once it is already in the replied state. -/
theorem runCallOps_terminal_bound :
    ∀ (ops : List CallOp) (call : VCall),
      terminalFrames (runCallOps call ops).2 ≤ if call.replied then 0 else 1 := by
  intro ops
  induction ops with
  | nil => intro call; simp [runCallOps, terminalFrames]
  | cons op ops ih =>
    intro call
    cases op with
    | reply p f =>
      by_cases hr : call.replied
      · have := ih call
        simp [runCallOps, varlink_call_reply, hr, terminalFrames] at this ⊢
        simpa [hr] using this
      · by_cases ho : call.oneway
        · have := ih call
          simp [runCallOps, varlink_call_reply, hr, ho, terminalFrames] at this ⊢
          simpa [hr] using this
        · by_cases hc : f.testBit 0
          · by_cases hm : call.more
            · have := ih call
              simp [runCallOps, varlink_call_reply, hr, ho, hc, hm, terminalFrames] at this ⊢
              simpa [hr] using this
            · have := ih call
              simp [runCallOps, varlink_call_reply, hr, ho, hc, hm, terminalFrames] at this ⊢
              simpa [hr] using this
          · have := ih { call with replied := true }
            simp [runCallOps, varlink_call_reply, hr, ho, hc, terminalFrames] at this ⊢
            exact this
    | replyError e p =>
      by_cases hr : call.replied
      · have := ih call
        simp [runCallOps, varlink_call_reply_error, hr, terminalFrames] at this ⊢
        simpa [hr] using this
      · by_cases ho : call.oneway
        · have := ih call
          simp [runCallOps, varlink_call_reply_error, hr, ho, terminalFrames] at this ⊢
          simpa [hr] using this
        · have := ih { call with replied := true }
          simp [runCallOps, varlink_call_reply_error, hr, ho, terminalFrames] at this ⊢
          exact this

/-- Claim C7: the first terminal reply transitions `replied` from false to
true and writes exactly one terminal frame; once replied, a further terminal
reply attempt on a call made without the `more` flag fails with `InvalidCall`
and changes neither the call nor the wire; and over any operation sequence a
call that has not replied emits at most one terminal frame. -/
theorem claim7_reply_once (call : VCall) (p q : VObject) (err : List Char)
    (ops : List CallOp) :
    (call.replied = false → call.oneway = false →
      varlink_call_reply call p 0 =
        (0, { call with replied := true }, [⟨none, p, false⟩])) ∧
    (call.replied = true → call.more = false →
      varlink_call_reply call q 0 = (-VARLINK_ERROR_INVALID_CALL, call, []) ∧
      varlink_call_reply_error call err q =
        (-VARLINK_ERROR_INVALID_CALL, call, [])) ∧
    (call.replied = false → terminalFrames (runCallOps call ops).2 ≤ 1) := by
  refine ⟨?_, ?_, ?_⟩
  · intro h1 h2
    simp [varlink_call_reply, h1, h2]
  · intro h1 _
    constructor <;> simp [varlink_call_reply, varlink_call_reply_error, h1]
  · intro h1
    have := runCallOps_terminal_bound ops call
    simpa [h1] using this

/-- Witness for C7: a concrete call without flags replies once; a concrete
already-replied call refuses a second terminal reply both ways; a fresh call
attempting two terminal replies puts exactly at most one terminal frame on
the wire. -/
theorem claim7_reply_once_witness :
    (varlink_call_reply ⟨false, false, false⟩ [] 0 =
      (0, { more := false, oneway := false, replied := true }, [⟨none, [], false⟩])) ∧
    (varlink_call_reply ⟨false, false, true⟩ [] 0 =
      (-VARLINK_ERROR_INVALID_CALL, ⟨false, false, true⟩, []) ∧
     varlink_call_reply_error ⟨false, false, true⟩ ['E'] [] =
      (-VARLINK_ERROR_INVALID_CALL, ⟨false, false, true⟩, [])) ∧
    terminalFrames (runCallOps ⟨false, false, false⟩ [.reply [] 0, .reply [] 0]).2 ≤ 1 :=
  ⟨(claim7_reply_once ⟨false, false, false⟩ [] [] ['E'] []).1 rfl rfl,
   (claim7_reply_once ⟨false, false, true⟩ [] [] ['E'] []).2.1 rfl rfl,
   (claim7_reply_once ⟨false, false, false⟩ [] [] ['E']
      [.reply [] 0, .reply [] 0]).2.2 rfl⟩

/-- Modelled from the spec: one client-side pending call (spec section 3,
"Connection": a FIFO queue of pending calls awaiting reply, each holding its
reply callback + userdata); the callback/userdata pair is identified by an
opaque tag. -/
structure PendingCall where
  method : List Char
  tag : Nat

/-- Modelled from the spec: the client-side `VarlinkConnection` state
(connection.c is absent from src/): the FIFO pending-call queue and the
closed flag. -/
structure VConnection where
  pending : List PendingCall
  closed : Bool

/-- A fresh open client connection with no pending calls. -/
def varlink_connection_new : VConnection := ⟨[], false⟩

/-- Modelled from the spec: `varlink_connection_call` (src/lib/varlink.h
lines 422-427; connection.c is absent from src/): spec 4.6, the call is
enqueued at the tail of the FIFO pending-call queue. -/
def varlink_connection_call (connection : VConnection) (method : List Char)
    (tag : Nat) : VConnection :=
  { connection with pending := connection.pending ++ [⟨method, tag⟩] }

/-- One reply-callback invocation observed by the application: the callback's
tag and the error name it was handed (none for a success reply). -/
structure CallbackEvent where
  tag : Nat
  err : Option (List Char)

/-- Modelled from the spec: `varlink_connection_close` (src/lib/varlink.h
line 432; connection.c is absent from src/): spec 4.6, closing drains the
pending-call queue, invoking each remaining callback with a
`ConnectionClosed` error; the returned trace lists the invocations in the
order they happen. -/
def varlink_connection_close (connection : VConnection) :
    List CallbackEvent × VConnection :=
  (connection.pending.map (fun p => ⟨p.tag, some "ConnectionClosed".data⟩),
   ⟨[], true⟩)

/-- Helper for C8: issuing calls appends them to the pending queue in order. -/
theorem pending_after_calls (calls : List (List Char × Nat)) :
    ∀ connection : VConnection,
      (calls.foldl (fun c m => varlink_connection_call c m.1 m.2) connection).pending =
        connection.pending ++ calls.map (fun m => ⟨m.1, m.2⟩) := by
  induction calls with
  | nil => intro connection; simp
  | cons m calls ih =>
    intro connection
    rw [List.foldl_cons, ih]
    simp [varlink_connection_call]

/-- Claim C8: closing a connection on which any number of calls are still
pending invokes every pending call's callback with a `ConnectionClosed` error
exactly once each, in the FIFO order the calls were issued, and empties the
pending queue — none skipped, none invoked twice. -/
theorem claim8_close_drains_fifo (calls : List (List Char × Nat)) :
    (varlink_connection_close
        (calls.foldl (fun c m => varlink_connection_call c m.1 m.2)
          varlink_connection_new)).1 =
      calls.map (fun m => ⟨m.2, some "ConnectionClosed".data⟩) ∧
    (varlink_connection_close
        (calls.foldl (fun c m => varlink_connection_call c m.1 m.2)
          varlink_connection_new)).2.pending = [] := by
  constructor
  · simp only [varlink_connection_close]
    rw [pending_after_calls calls varlink_connection_new]
    simp [varlink_connection_new]
  · rfl

/-- Modelled from the spec: `varlink_object_ref` (src/lib/varlink.h lines
137-142; object.c is absent from src/): increments the reference count and,
per its contract, returns the very value it was given. -/
def varlink_object_ref (object : VObject) (refcount : Nat) : VObject × Nat :=
  (object, refcount + 1)

/-- Modelled from the spec: `varlink_object_unref` (src/lib/varlink.h lines
124-130; object.c is absent from src/): decrements the reference count
(dropping the last reference frees the value) and, per its contract, returns
NULL — never a handle to the possibly-freed value. -/
def varlink_object_unref (object : VObject) (refcount : Nat) : Option VObject × Nat :=
  (none, refcount - 1)

/-- Modelled from the spec: `varlink_array_ref` (src/lib/varlink.h lines
183-188; array.c is absent from src/); same contract as the object variant. -/
def varlink_array_ref (array : VArray) (refcount : Nat) : VArray × Nat :=
  (array, refcount + 1)

/-- Modelled from the spec: `varlink_array_unref` (src/lib/varlink.h lines
190-196; array.c is absent from src/); same contract as the object variant. -/
def varlink_array_unref (array : VArray) (refcount : Nat) : Option VArray × Nat :=
  (none, refcount - 1)

/-- Claim C9: the reference-decrement operations always return NULL, never a
handle to the possibly-freed value, while the reference-increment operations
return exactly the object or array they were given (and the two adjust the
count by one in opposite directions). -/
theorem claim9_ref_contracts (o : VObject) (a : VArray) (n m : Nat) :
    (varlink_object_unref o n).1 = none ∧
    (varlink_array_unref a m).1 = none ∧
    (varlink_object_ref o n).1 = o ∧
    (varlink_array_ref a m).1 = a ∧
    (varlink_object_ref o n).2 = n + 1 ∧
    (varlink_object_unref o n).2 = n - 1 :=
  ⟨rfl, rfl, rfl, rfl, rfl, rfl⟩

/-!
Part 4: the JSON codec (spec section 2 component 2 and spec section 4.1).
`src/lib/varlink.h` declares `varlink_object_to_json` (line 150) and
`varlink_object_new_from_json` (line 122); the implementing codec file is
absent from src/, so serializer and parser are modelled from the spec: a
compact UTF-8 JSON text, objects in insertion order, arrays in element order.
Numbers are written in decimal, floats always carrying an `e` exponent,
matching the exact-decimal float model of `Value`.
-/

/-- The decimal digit character of a digit value (values past 9 clamp). -/
def digitCh : Nat → Char
  | 0 => '0'
  | 1 => '1'
  | 2 => '2'
  | 3 => '3'
  | 4 => '4'
  | 5 => '5'
  | 6 => '6'
  | 7 => '7'
  | 8 => '8'
  | _ => '9'

/-- The decimal digit characters of a natural number, most significant
first. -/
def natDigits (n : Nat) : List Char :=
  if h : n < 10 then [digitCh n]
  else natDigits (n / 10) ++ [digitCh (n % 10)]
termination_by n
decreasing_by exact Nat.div_lt_self (by omega) (by omega)

/-- The decimal characters of an integer: a leading minus sign for negative
values, then the digits of the magnitude. -/
def intChars (i : Int) : List Char :=
  if i < 0 then '-' :: natDigits i.natAbs else natDigits i.toNat

/-- Numeric value of one digit character. -/
def digitVal (c : Char) : Nat := c.toNat - 48

/-- Numeric value of a digit string, most significant first. -/
def digitsVal (cs : List Char) : Nat :=
  cs.foldl (fun a c => 10 * a + digitVal c) 0

/-- JSON escaping of one string character: quote, backslash, newline, tab and
carriage return take a two-character escape, anything else stands for
itself. -/
def escChar (c : Char) : List Char :=
  if c = '"' then ['\\', '"']
  else if c = '\\' then ['\\', '\\']
  else if c = '\n' then ['\\', 'n']
  else if c = '\t' then ['\\', 't']
  else if c = '\r' then ['\\', 'r']
  else [c]

/-- JSON escaping of a whole string body. -/
def escape : List Char → List Char
  | [] => []
  | c :: cs => escChar c ++ escape cs

/-- The character named by a backslash escape, if any. -/
def unescChar : Char → Option Char
  | '"' => some '"'
  | '\\' => some '\\'
  | 'n' => some '\n'
  | 't' => some '\t'
  | 'r' => some '\r'
  | _ => none

/-- Parse a JSON string body up to and including the closing quote, returning
the unescaped characters and the remaining input. -/
def parseStrBody : List Char → Option (List Char × List Char)
  | [] => none
  | c :: cs =>
    if c = '"' then some ([], cs)
    else if c = '\\' then
      match cs with
      | [] => none
      | d :: ds =>
        match unescChar d with
        | none => none
        | some u =>
          match parseStrBody ds with
          | none => none
          | some (s, r) => some (u :: s, r)
    else
      match parseStrBody cs with
      | none => none
      | some (s, r) => some (c :: s, r)

/-- Strip a leading minus sign. -/
def splitSign : List Char → Bool × List Char
  | [] => (false, [])
  | c :: cs => if c = '-' then (true, cs) else (false, c :: cs)

/-- Parse the exponent part of a JSON number, after the `e` marker: optional
sign and digits, giving a float value with the already-parsed mantissa. -/
def parseExp (i : Int) (cs3 : List Char) : Option (Value × List Char) :=
  let sg2 := splitSign cs3
  let es := sg2.2.takeWhile Char.isDigit
  let cs4 := sg2.2.dropWhile Char.isDigit
  if es = [] then none
  else
    some (.vfloat i (if sg2.1 then -(digitsVal es : Int) else (digitsVal es : Int)), cs4)

/-- Parse a JSON number: optional sign, digits, and an optional exponent part
that turns the result into a float value. -/
def parseNum (cs : List Char) : Option (Value × List Char) :=
  let sg := splitSign cs
  let ds := sg.2.takeWhile Char.isDigit
  let cs2 := sg.2.dropWhile Char.isDigit
  if ds = [] then none
  else
    let i : Int := if sg.1 then -(digitsVal ds : Int) else (digitsVal ds : Int)
    match cs2 with
    | [] => some (.vint i, [])
    | c :: cs3 => if c = 'e' then parseExp i cs3 else some (.vint i, c :: cs3)

/-- Consume an expected literal tail, returning the rest of the input. -/
def dropToken : List Char → List Char → Option (List Char)
  | [], cs => some cs
  | _ :: _, [] => none
  | p :: ps, c :: cs => if c = p then dropToken ps cs else none

mutual

/-- Serialize a `Value` to compact JSON text. -/
def serVal : Value → List Char
  | .vnull => ['n', 'u', 'l', 'l']
  | .vbool true => ['t', 'r', 'u', 'e']
  | .vbool false => ['f', 'a', 'l', 's', 'e']
  | .vint i => intChars i
  | .vfloat m e => intChars m ++ 'e' :: intChars e
  | .vstring s => '"' :: escape s ++ ['"']
  | .varray vs => '[' :: serElems vs
  | .vobject fs => '{' :: serFields fs

/-- Serialize array elements: comma separated, closing bracket included. -/
def serElems : List Value → List Char
  | [] => [']']
  | [v] => serVal v ++ [']']
  | v :: vs => serVal v ++ ',' :: serElems vs

/-- Serialize object fields: quoted key, colon, value, comma separated,
closing brace included. -/
def serFields : List (List Char × Value) → List Char
  | [] => ['}']
  | [(k, v)] => '"' :: escape k ++ '"' :: ':' :: serVal v ++ ['}']
  | (k, v) :: fs => '"' :: escape k ++ '"' :: ':' :: serVal v ++ ',' :: serFields fs

end

mutual

/-- Parse one JSON value; the fuel counter decreases on every nested call and
bounds the recursion. -/
def parseVal : Nat → List Char → Option (Value × List Char)
  | 0, _ => none
  | _ + 1, [] => none
  | fuel + 1, c :: cs =>
    if c = 'n' then
      (dropToken ['u', 'l', 'l'] cs).map (fun rest => (Value.vnull, rest))
    else if c = 't' then
      (dropToken ['r', 'u', 'e'] cs).map (fun rest => (Value.vbool true, rest))
    else if c = 'f' then
      (dropToken ['a', 'l', 's', 'e'] cs).map (fun rest => (Value.vbool false, rest))
    else if c = '"' then
      (parseStrBody cs).map (fun p => (Value.vstring p.1, p.2))
    else if c = '[' then
      if cs.head? = some ']' then some (Value.varray [], cs.tail)
      else (parseElems fuel cs).map (fun p => (Value.varray p.1, p.2))
    else if c = '{' then
      if cs.head? = some '}' then some (Value.vobject [], cs.tail)
      else (parseFieldSeq fuel cs).map (fun p => (Value.vobject p.1, p.2))
    else parseNum (c :: cs)

/-- Parse one or more comma-separated array elements and the closing
bracket. -/
def parseElems : Nat → List Char → Option (List Value × List Char)
  | 0, _ => none
  | fuel + 1, cs =>
    (parseVal fuel cs).bind (fun p =>
      if p.2.head? = some ',' then
        (parseElems fuel p.2.tail).map (fun q => (p.1 :: q.1, q.2))
      else if p.2.head? = some ']' then some ([p.1], p.2.tail)
      else none)

/-- Parse one or more comma-separated object members and the closing
brace. -/
def parseFieldSeq : Nat → List Char → Option (List (List Char × Value) × List Char)
  | 0, _ => none
  | fuel + 1, cs =>
    if cs.head? = some '"' then
      (parseStrBody cs.tail).bind (fun pk =>
        if pk.2.head? = some ':' then
          (parseVal fuel pk.2.tail).bind (fun pv =>
            if pv.2.head? = some ',' then
              (parseFieldSeq fuel pv.2.tail).map (fun q => ((pk.1, pv.1) :: q.1, q.2))
            else if pv.2.head? = some '}' then some ([(pk.1, pv.1)], pv.2.tail)
            else none)
        else none)
    else none

end

mutual

/-- Fuel needed by `parseVal` to parse the serialization of a value. -/
def fsize : Value → Nat
  | .varray vs => 1 + fsizeL vs
  | .vobject fs => 1 + fsizeF fs
  | _ => 1

/-- Fuel needed by `parseElems` for a serialized element list. -/
def fsizeL : List Value → Nat
  | [] => 1
  | v :: vs => 1 + fsize v + fsizeL vs

/-- Fuel needed by `parseFieldSeq` for a serialized member list. -/
def fsizeF : List (List Char × Value) → Nat
  | [] => 1
  | (_, v) :: fs => 1 + fsize v + fsizeF fs

end

/-- Is the remaining input unable to extend a just-parsed number, i.e. does
it start with neither a digit nor an exponent marker? -/
def bdry : List Char → Bool
  | [] => true
  | c :: _ => !(c.isDigit || c == 'e')

/-- `varlink_object_to_json` (declared at src/lib/varlink.h line 150):
serialize the object `Value` to JSON text.  Modelled from the spec, the codec
file being absent from src/. -/
def varlink_object_to_json (object : VObject) : List Char :=
  serVal (.vobject object)

/-- `varlink_object_new_from_json` (declared at src/lib/varlink.h line 122):
parse JSON text into an object, refusing text that is not a single complete
object.  Modelled from the spec, the codec file being absent from src/; the
fuel bound is two tokens per input character plus the enclosing value. -/
def varlink_object_new_from_json (json : List Char) : Option VObject :=
  match parseVal (2 * json.length + 2) json with
  | some (.vobject fields, []) => some fields
  | _ => none

/-- Every digit character produced by `digitCh` passes `Char.isDigit`. -/
theorem digitCh_isDigit (d : Nat) : (digitCh d).isDigit = true := by
  unfold digitCh
  split <;> decide

/-- `digitVal` inverts `digitCh` on digit values. -/
theorem digitVal_digitCh (d : Nat) (h : d < 10) : digitVal (digitCh d) = d := by
  interval_cases d <;> decide

/-- `natDigits` never produces the empty list. -/
theorem natDigits_ne_nil (n : Nat) : natDigits n ≠ [] := by
  rw [natDigits]
  split <;> simp

/-- Every character produced by `natDigits` is a digit. -/
theorem natDigits_digits (n : Nat) : ∀ c ∈ natDigits n, c.isDigit = true := by
  induction n using Nat.strong_induction_on with
  | _ n ih =>
    rw [natDigits]
    split
    · intro c hc
      rw [List.mem_singleton] at hc
      subst hc
      exact digitCh_isDigit n
    · intro c hc
      rw [List.mem_append] at hc
      rcases hc with hc | hc
      · exact ih (n / 10) (Nat.div_lt_self (by omega) (by omega)) c hc
      · rw [List.mem_singleton] at hc
        subst hc
        exact digitCh_isDigit (n % 10)

/-- Folding the digit-accumulation step over `natDigits n` starting from any
accumulator recovers `n` shifted past the produced digits. -/
theorem digitsFold_natDigits (n : Nat) : ∀ a : Nat,
    (natDigits n).foldl (fun x c => 10 * x + digitVal c) a =
      a * 10 ^ (natDigits n).length + n := by
  induction n using Nat.strong_induction_on with
  | _ n ih =>
    intro a
    rw [natDigits]
    split
    · rename_i h
      simp [List.foldl, digitVal_digitCh n h]
      omega
    · rename_i h
      rw [List.foldl_append, ih (n / 10) (Nat.div_lt_self (by omega) (by omega)) a]
      have hmod : 10 * (n / 10) + n % 10 = n := by omega
      calc (List.foldl (fun x c => 10 * x + digitVal c)
              (a * 10 ^ (natDigits (n / 10)).length + n / 10) [digitCh (n % 10)])
          = 10 * (a * 10 ^ (natDigits (n / 10)).length + n / 10) +
              digitVal (digitCh (n % 10)) := by rfl
        _ = a * (10 ^ (natDigits (n / 10)).length * 10) + (10 * (n / 10) + n % 10) := by
              rw [digitVal_digitCh (n % 10) (by omega)]
              ring
        _ = a * 10 ^ (natDigits (n / 10) ++ [digitCh (n % 10)]).length + n := by
              rw [hmod, List.length_append, List.length_singleton, pow_succ]

/-- `digitsVal` inverts `natDigits`. -/
theorem digitsVal_natDigits (n : Nat) : digitsVal (natDigits n) = n := by
  have := digitsFold_natDigits n 0
  simpa [digitsVal] using this

/-- `natDigits` starts with a digit character. -/
theorem natDigits_head (n : Nat) :
    ∃ c t, natDigits n = c :: t ∧ c.isDigit = true := by
  cases hd : natDigits n with
  | nil => exact absurd hd (natDigits_ne_nil n)
  | cons c t =>
    refine ⟨c, t, rfl, natDigits_digits n c ?_⟩
    rw [hd]
    exact List.mem_cons_self c t

/-- A digit character is none of the characters the parser dispatches on. -/
theorem isDigit_excl {c : Char} (h : c.isDigit = true) :
    c ≠ '-' ∧ c ≠ 'n' ∧ c ≠ 't' ∧ c ≠ 'f' ∧ c ≠ '"' ∧ c ≠ '[' ∧ c ≠ '{' ∧
    c ≠ ']' ∧ c ≠ '}' ∧ c ≠ ',' ∧ c ≠ ':' ∧ c ≠ 'e' ∧ c ≠ '\\' := by
  refine ⟨?_, ?_, ?_, ?_, ?_, ?_, ?_, ?_, ?_, ?_, ?_, ?_, ?_⟩ <;>
    · intro hc
      subst hc
      exact absurd h (by decide)

/-- `takeWhile`/`dropWhile` split an all-satisfying block from a stopper. -/
theorem span_all_append (p : Char → Bool) (xs rest : List Char)
    (h1 : ∀ c ∈ xs, p c = true)
    (h2 : ∀ c, rest.head? = some c → p c = false) :
    (xs ++ rest).takeWhile p = xs ∧ (xs ++ rest).dropWhile p = rest := by
  induction xs with
  | nil =>
    cases rest with
    | nil => simp
    | cons c t =>
      have := h2 c rfl
      simp [List.takeWhile, List.dropWhile, this]
  | cons x xs ih =>
    have hx : p x = true := h1 x (List.mem_cons_self x xs)
    have hrec := ih (fun c hc => h1 c (List.mem_cons_of_mem x hc))
    simp [List.takeWhile, List.dropWhile, hx, hrec.1, hrec.2]

/-- Consuming a literal token it was given back succeeds. -/
theorem dropToken_append (pat rest : List Char) :
    dropToken pat (pat ++ rest) = some rest := by
  induction pat with
  | nil => rfl
  | cons p ps ih => simp [dropToken, ih]

/-- The boundary check means the head, if any, is neither digit nor `e`. -/
theorem bdry_head {rest : List Char} (h : bdry rest = true) :
    ∀ c, rest.head? = some c → c.isDigit = false ∧ c ≠ 'e' := by
  cases rest with
  | nil => intro c hc; cases hc
  | cons d t =>
    intro c hc
    rw [List.head?_cons, Option.some_inj] at hc
    subst hc
    simp only [bdry, Bool.not_eq_eq_eq_not, Bool.not_true, Bool.or_eq_false_iff] at h
    refine ⟨h.1, ?_⟩
    intro hc
    subst hc
    simp at h

/-- Splitting the sign and spanning the digits of `intChars i` recovers the
sign, the digit block with value `i`, and the untouched tail. -/
theorem parseNum_core (i : Int) (tail : List Char)
    (htail : ∀ c, tail.head? = some c → c.isDigit = false) :
    (splitSign (intChars i ++ tail)).2.takeWhile Char.isDigit ≠ [] ∧
    (if (splitSign (intChars i ++ tail)).1
      then -(digitsVal ((splitSign (intChars i ++ tail)).2.takeWhile Char.isDigit) : Int)
      else (digitsVal ((splitSign (intChars i ++ tail)).2.takeWhile Char.isDigit) : Int)) = i ∧
    (splitSign (intChars i ++ tail)).2.dropWhile Char.isDigit = tail := by
  rcases lt_or_le i 0 with hi | hi
  · rw [intChars, if_pos hi, List.cons_append]
    have hsg : splitSign ('-' :: (natDigits i.natAbs ++ tail)) =
        (true, natDigits i.natAbs ++ tail) := by
      simp [splitSign]
    rw [hsg]
    obtain ⟨ht, hd⟩ := span_all_append Char.isDigit (natDigits i.natAbs) tail
      (natDigits_digits _) htail
    refine ⟨?_, ?_, ?_⟩
    · rw [ht]; exact natDigits_ne_nil _
    · simp [ht, digitsVal_natDigits]
      rw [abs_of_nonpos (by omega)]
      omega
    · exact hd
  · rw [intChars, if_neg (by omega)]
    obtain ⟨c, t, hct, hcd⟩ := natDigits_head i.toNat
    have hsg : splitSign (natDigits i.toNat ++ tail) =
        (false, natDigits i.toNat ++ tail) := by
      rw [hct, List.cons_append, splitSign]
      rw [if_neg (isDigit_excl hcd).1]
    rw [hsg]
    obtain ⟨ht, hd⟩ := span_all_append Char.isDigit (natDigits i.toNat) tail
      (natDigits_digits _) htail
    refine ⟨?_, ?_, ?_⟩
    · rw [ht]; exact natDigits_ne_nil _
    · simp [ht, digitsVal_natDigits]
      omega
    · exact hd

/-- Parsing the serialization of an int, followed by input that cannot extend
a number, yields exactly that int and leaves the tail untouched. -/
theorem parseNum_intChars (i : Int) (rest : List Char) (hrest : bdry rest = true) :
    parseNum (intChars i ++ rest) = some (.vint i, rest) := by
  have htail : ∀ c, rest.head? = some c → c.isDigit = false :=
    fun c hc => (bdry_head hrest c hc).1
  obtain ⟨hne, hval, hdrop⟩ := parseNum_core i rest htail
  simp only [parseNum]
  rw [if_neg hne, hdrop, hval]
  cases rest with
  | nil => rfl
  | cons c t =>
    have hce : ¬(c = 'e') := (bdry_head hrest c rfl).2
    simp [hce]

/-- Parsing the serialization of a float (mantissa, `e`, exponent), followed
by input that cannot extend a number, yields exactly that float. -/
theorem parseNum_floatChars (m ex : Int) (rest : List Char) (hrest : bdry rest = true) :
    parseNum (intChars m ++ ('e' :: (intChars ex ++ rest))) =
      some (.vfloat m ex, rest) := by
  have htail : ∀ c, ('e' :: (intChars ex ++ rest)).head? = some c → c.isDigit = false := by
    intro c hc
    rw [List.head?_cons, Option.some_inj] at hc
    subst hc
    decide
  obtain ⟨hne, hval, hdrop⟩ := parseNum_core m ('e' :: (intChars ex ++ rest)) htail
  simp only [parseNum]
  rw [if_neg hne, hdrop, hval]
  have htail2 : ∀ c, rest.head? = some c → c.isDigit = false :=
    fun c hc => (bdry_head hrest c hc).1
  obtain ⟨hne2, hval2, hdrop2⟩ := parseNum_core ex rest htail2
  simp only [parseExp, if_pos]
  rw [if_neg hne2, hdrop2, hval2]

/-- Parsing an escaped string body followed by the closing quote recovers the
original characters and the input after the quote. -/
theorem parseStrBody_escape (s rest : List Char) :
    parseStrBody (escape s ++ '"' :: rest) = some (s, rest) := by
  induction s with
  | nil =>
    simp only [escape, List.nil_append]
    rw [parseStrBody.eq_def]
    simp
  | cons c s ih =>
    by_cases h1 : c = '"'
    · subst h1
      have hl : escape ('"' :: s) ++ '"' :: rest =
          '\\' :: '"' :: (escape s ++ '"' :: rest) := by
        simp [escape, escChar]
      rw [hl, parseStrBody.eq_def]
      simp [unescChar, ih]
    · by_cases h2 : c = '\\'
      · subst h2
        have hl : escape ('\\' :: s) ++ '"' :: rest =
            '\\' :: '\\' :: (escape s ++ '"' :: rest) := by
          simp [escape, escChar]
        rw [hl, parseStrBody.eq_def]
        simp [unescChar, ih]
      · by_cases h3 : c = '\n'
        · subst h3
          have hl : escape ('\n' :: s) ++ '"' :: rest =
              '\\' :: 'n' :: (escape s ++ '"' :: rest) := by
            simp [escape, escChar]
          rw [hl, parseStrBody.eq_def]
          simp [unescChar, ih]
        · by_cases h4 : c = '\t'
          · subst h4
            have hl : escape ('\t' :: s) ++ '"' :: rest =
                '\\' :: 't' :: (escape s ++ '"' :: rest) := by
              simp [escape, escChar]
            rw [hl, parseStrBody.eq_def]
            simp [unescChar, ih]
          · by_cases h5 : c = '\r'
            · subst h5
              have hl : escape ('\r' :: s) ++ '"' :: rest =
                  '\\' :: 'r' :: (escape s ++ '"' :: rest) := by
                simp [escape, escChar]
              rw [hl, parseStrBody.eq_def]
              simp [unescChar, ih]
            · have hl : escape (c :: s) ++ '"' :: rest =
                  c :: (escape s ++ '"' :: rest) := by
                simp [escape, escChar, h1, h2, h3, h4, h5]
              rw [hl, parseStrBody.eq_def]
              simp [h1, h2, ih]

/-- Every value needs at least one unit of fuel. -/
theorem fsize_pos (v : Value) : 1 ≤ fsize v := by
  cases v <;> simp [fsize]

/-- `intChars` starts with a digit or a minus sign. -/
theorem intChars_shape (i : Int) :
    ∃ c t, intChars i = c :: t ∧ (c.isDigit = true ∨ c = '-') := by
  rw [intChars]
  split
  · exact ⟨'-', _, rfl, Or.inr rfl⟩
  · obtain ⟨c, t, hct, hcd⟩ := natDigits_head i.toNat
    exact ⟨c, t, hct, Or.inl hcd⟩

/-- On input starting with a digit or minus sign, the value parser defers to
the number parser. -/
theorem parseVal_to_parseNum (f : Nat) (c : Char) (t : List Char)
    (hnum : c.isDigit = true ∨ c = '-') :
    parseVal (f + 1) (c :: t) = parseNum (c :: t) := by
  have hex : c ≠ 'n' ∧ c ≠ 't' ∧ c ≠ 'f' ∧ c ≠ '"' ∧ c ≠ '[' ∧ c ≠ '{' := by
    rcases hnum with hd | hd
    · have h9 := isDigit_excl hd
      exact ⟨h9.2.1, h9.2.2.1, h9.2.2.2.1, h9.2.2.2.2.1, h9.2.2.2.2.2.1,
        h9.2.2.2.2.2.2.1⟩
    · subst hd
      exact ⟨by decide, by decide, by decide, by decide, by decide, by decide⟩
  obtain ⟨hx1, hx2, hx3, hx4, hx5, hx6⟩ := hex
  rw [parseVal.eq_def]
  simp only [hx1, hx2, hx3, hx4, hx5, hx6, if_false, ite_false]

/-- The serialization of any value is nonempty and opens with a character
that closes no bracket. -/
theorem serVal_cons (v : Value) :
    ∃ d t, serVal v = d :: t ∧ d ≠ ']' ∧ d ≠ '}' := by
  cases v with
  | vnull => exact ⟨'n', ['u', 'l', 'l'], by simp [serVal], by decide, by decide⟩
  | vbool b =>
    cases b with
    | true => exact ⟨'t', ['r', 'u', 'e'], by simp [serVal], by decide, by decide⟩
    | false => exact ⟨'f', ['a', 'l', 's', 'e'], by simp [serVal], by decide, by decide⟩
  | vint i =>
    obtain ⟨c, t, hct, hnum⟩ := intChars_shape i
    refine ⟨c, t, by simp [serVal, hct], ?_, ?_⟩ <;>
      rcases hnum with hd | hd
    · exact (isDigit_excl hd).2.2.2.2.2.2.2.1
    · subst hd; decide
    · exact (isDigit_excl hd).2.2.2.2.2.2.2.2.1
    · subst hd; decide
  | vfloat m e =>
    obtain ⟨c, t, hct, hnum⟩ := intChars_shape m
    refine ⟨c, t ++ 'e' :: intChars e, by simp [serVal, hct], ?_, ?_⟩ <;>
      rcases hnum with hd | hd
    · exact (isDigit_excl hd).2.2.2.2.2.2.2.1
    · subst hd; decide
    · exact (isDigit_excl hd).2.2.2.2.2.2.2.2.1
    · subst hd; decide
  | vstring s =>
    exact ⟨'"', escape s ++ ['"'], by simp [serVal], by decide, by decide⟩
  | varray vs => exact ⟨'[', serElems vs, by simp [serVal], by decide, by decide⟩
  | vobject fs => exact ⟨'{', serFields fs, by simp [serVal], by decide, by decide⟩

/-- A nonempty element list serializes to its head's serialization followed
by a separator tail. -/
theorem serElems_shape (v : Value) (vs : List Value) :
    ∃ t, serElems (v :: vs) = serVal v ++ t := by
  cases vs with
  | nil => exact ⟨[']'], by simp [serElems]⟩
  | cons v2 vs' => exact ⟨',' :: serElems (v2 :: vs'), by simp [serElems]⟩

/-- A nonempty member list serializes to an opening quote followed by the
escaped key and the rest. -/
theorem serFields_head (k : List Char) (v : Value)
    (fs : List (List Char × Value)) :
    ∃ t, serFields ((k, v) :: fs) = '"' :: t := by
  cases fs with
  | nil =>
    exact ⟨escape k ++ '"' :: ':' :: (serVal v ++ ['}']), by simp [serFields]⟩
  | cons kv fs' =>
    exact ⟨escape k ++ '"' :: ':' :: (serVal v ++ ',' :: serFields (kv :: fs')),
      by simp [serFields]⟩

/-- Every element list needs at least one unit of fuel. -/
theorem fsizeL_pos (vs : List Value) : 1 ≤ fsizeL vs := by
  cases vs with
  | nil => simp [fsizeL]
  | cons v vs =>
    simp [fsizeL]
    omega

/-- Every member list needs at least one unit of fuel. -/
theorem fsizeF_pos (fs : List (List Char × Value)) : 1 ≤ fsizeF fs := by
  cases fs with
  | nil => simp [fsizeF]
  | cons kv fs' =>
    obtain ⟨k, v⟩ := kv
    simp [fsizeF]
    omega

/-- Combined round-trip statement, by strong induction on a fuel bound: with
enough fuel, parsing the serialization of a value (or of a nonempty element
or member list) followed by suitable input recovers it exactly. -/
theorem roundAux (N : Nat) :
    (∀ v : Value, fsize v ≤ N → ∀ (rest : List Char) (fuel : Nat),
      bdry rest = true → fsize v ≤ fuel →
      parseVal fuel (serVal v ++ rest) = some (v, rest)) ∧
    (∀ vs : List Value, fsizeL vs ≤ N → vs ≠ [] → ∀ (rest : List Char) (fuel : Nat),
      fsizeL vs ≤ fuel →
      parseElems fuel (serElems vs ++ rest) = some (vs, rest)) ∧
    (∀ fs : List (List Char × Value), fsizeF fs ≤ N → fs ≠ [] →
      ∀ (rest : List Char) (fuel : Nat), fsizeF fs ≤ fuel →
      parseFieldSeq fuel (serFields fs ++ rest) = some (fs, rest)) := by
  induction N using Nat.strong_induction_on with
  | _ N ih =>
    refine ⟨?_, ?_, ?_⟩
    · intro v hN rest fuel hrest hfuel
      obtain ⟨f, rfl⟩ : ∃ f, fuel = f + 1 := ⟨fuel - 1, by have := fsize_pos v; omega⟩
      cases v with
      | vnull =>
        have hl : serVal .vnull ++ rest = 'n' :: ('u' :: 'l' :: 'l' :: rest) := by
          simp [serVal]
        rw [hl, parseVal.eq_def]
        simp [dropToken]
      | vbool b =>
        cases b with
        | true =>
          have hl : serVal (.vbool true) ++ rest =
              't' :: ('r' :: 'u' :: 'e' :: rest) := by
            simp [serVal]
          rw [hl, parseVal.eq_def]
          simp [dropToken]
        | false =>
          have hl : serVal (.vbool false) ++ rest =
              'f' :: ('a' :: 'l' :: 's' :: 'e' :: rest) := by
            simp [serVal]
          rw [hl, parseVal.eq_def]
          simp [dropToken]
      | vint i =>
        have hl : serVal (.vint i) ++ rest = intChars i ++ rest := by simp [serVal]
        rw [hl]
        obtain ⟨c, t, hct, hnum⟩ := intChars_shape i
        rw [hct, List.cons_append, parseVal_to_parseNum f c _ hnum,
          ← List.cons_append, ← hct]
        exact parseNum_intChars i rest hrest
      | vfloat m e =>
        have hl : serVal (.vfloat m e) ++ rest =
            intChars m ++ ('e' :: (intChars e ++ rest)) := by
          simp [serVal]
        rw [hl]
        obtain ⟨c, t, hct, hnum⟩ := intChars_shape m
        rw [hct, List.cons_append, parseVal_to_parseNum f c _ hnum,
          ← List.cons_append, ← hct]
        exact parseNum_floatChars m e rest hrest
      | vstring s =>
        have hl : serVal (.vstring s) ++ rest = '"' :: (escape s ++ '"' :: rest) := by
          simp [serVal]
        rw [hl, parseVal.eq_def]
        simp [parseStrBody_escape]
      | varray vs =>
        cases vs with
        | nil =>
          have hl : serVal (.varray []) ++ rest = '[' :: (']' :: rest) := by
            simp [serVal, serElems]
          rw [hl, parseVal.eq_def]
          simp
        | cons v1 vs' =>
          obtain ⟨t0, ht0⟩ := serElems_shape v1 vs'
          obtain ⟨d, dt, hd, hd1, hd2⟩ := serVal_cons v1
          have hl : serVal (.varray (v1 :: vs')) ++ rest =
              '[' :: (serElems (v1 :: vs') ++ rest) := by
            simp [serVal]
          have hhead : (serElems (v1 :: vs') ++ rest).head? = some d := by
            rw [ht0, hd]
            simp
          have hfl : fsizeL (v1 :: vs') ≤ f := by
            simp [fsize] at hfuel
            omega
          have hlt : fsizeL (v1 :: vs') < N := by
            simp [fsize] at hN
            omega
          rw [hl, parseVal.eq_def]
          simp [hhead, hd1,
            (ih _ hlt).2.1 (v1 :: vs') le_rfl (by simp) rest f hfl]
      | vobject fs =>
        cases fs with
        | nil =>
          have hl : serVal (.vobject []) ++ rest = '{' :: ('}' :: rest) := by
            simp [serVal, serFields]
          rw [hl, parseVal.eq_def]
          simp
        | cons kv fs' =>
          obtain ⟨k, v1⟩ := kv
          obtain ⟨t0, ht0⟩ := serFields_head k v1 fs'
          have hl : serVal (.vobject ((k, v1) :: fs')) ++ rest =
              '{' :: (serFields ((k, v1) :: fs') ++ rest) := by
            simp [serVal]
          have hhead : (serFields ((k, v1) :: fs') ++ rest).head? = some '"' := by
            rw [ht0]
            simp
          have hff : fsizeF ((k, v1) :: fs') ≤ f := by
            simp [fsize] at hfuel
            omega
          have hlt : fsizeF ((k, v1) :: fs') < N := by
            simp [fsize] at hN
            omega
          rw [hl, parseVal.eq_def]
          simp [hhead,
            (ih _ hlt).2.2 ((k, v1) :: fs') le_rfl (by simp) rest f hff]
    · intro vs hN hne rest fuel hfuel
      cases vs with
      | nil => exact absurd rfl hne
      | cons v1 vs' =>
        obtain ⟨f, rfl⟩ : ∃ f, fuel = f + 1 := by
          refine ⟨fuel - 1, ?_⟩
          simp [fsizeL] at hfuel
          omega
        cases vs' with
        | nil =>
          have hl : serElems [v1] ++ rest = serVal v1 ++ (']' :: rest) := by
            simp [serElems]
          have hfv : fsize v1 ≤ f := by
            simp [fsizeL] at hfuel
            omega
          have hlt1 : fsize v1 < N := by
            simp [fsizeL] at hN
            omega
          rw [hl, parseElems.eq_def]
          simp [(ih _ hlt1).1 v1 le_rfl (']' :: rest) f (by rfl) hfv]
        | cons v2 vs'' =>
          have hl : serElems (v1 :: v2 :: vs'') ++ rest =
              serVal v1 ++ (',' :: (serElems (v2 :: vs'') ++ rest)) := by
            simp [serElems]
          have hfv : fsize v1 ≤ f := by
            have := fsizeL_pos (v2 :: vs'')
            simp [fsizeL] at hfuel this
            omega
          have hfl : fsizeL (v2 :: vs'') ≤ f := by
            have := fsize_pos v1
            simp [fsizeL] at hfuel ⊢
            omega
          have hlt1 : fsize v1 < N := by
            have := fsizeL_pos (v2 :: vs'')
            simp [fsizeL] at hN this
            omega
          have hlt2 : fsizeL (v2 :: vs'') < N := by
            have := fsize_pos v1
            simp [fsizeL] at hN ⊢
            omega
          rw [hl, parseElems.eq_def]
          simp [(ih _ hlt1).1 v1 le_rfl (',' :: (serElems (v2 :: vs'') ++ rest)) f
              (by rfl) hfv,
            (ih _ hlt2).2.1 (v2 :: vs'') le_rfl (by simp) rest f hfl]
    · intro fs hN hne rest fuel hfuel
      cases fs with
      | nil => exact absurd rfl hne
      | cons kv fs' =>
        obtain ⟨k, v1⟩ := kv
        obtain ⟨f, rfl⟩ : ∃ f, fuel = f + 1 := by
          refine ⟨fuel - 1, ?_⟩
          simp [fsizeF] at hfuel
          omega
        cases fs' with
        | nil =>
          have hl : serFields [(k, v1)] ++ rest =
              '"' :: (escape k ++ '"' :: (':' :: (serVal v1 ++ '}' :: rest))) := by
            simp [serFields]
          have hfv : fsize v1 ≤ f := by
            simp [fsizeF] at hfuel
            omega
          have hlt1 : fsize v1 < N := by
            simp [fsizeF] at hN
            omega
          rw [hl, parseFieldSeq.eq_def]
          simp [parseStrBody_escape,
            (ih _ hlt1).1 v1 le_rfl ('}' :: rest) f (by rfl) hfv]
        | cons kv2 fs'' =>
          obtain ⟨k2, v2⟩ := kv2
          have hl : serFields ((k, v1) :: (k2, v2) :: fs'') ++ rest =
              '"' :: (escape k ++ '"' :: (':' :: (serVal v1 ++
                ',' :: (serFields ((k2, v2) :: fs'') ++ rest)))) := by
            simp [serFields]
          have hfv : fsize v1 ≤ f := by
            have := fsizeF_pos ((k2, v2) :: fs'')
            simp [fsizeF] at hfuel this
            omega
          have hff : fsizeF ((k2, v2) :: fs'') ≤ f := by
            have := fsize_pos v1
            simp [fsizeF] at hfuel ⊢
            omega
          have hlt1 : fsize v1 < N := by
            have := fsizeF_pos ((k2, v2) :: fs'')
            simp [fsizeF] at hN this
            omega
          have hlt2 : fsizeF ((k2, v2) :: fs'') < N := by
            have := fsize_pos v1
            simp [fsizeF] at hN ⊢
            omega
          rw [hl, parseFieldSeq.eq_def]
          simp [parseStrBody_escape,
            (ih _ hlt1).1 v1 le_rfl
              (',' :: (serFields ((k2, v2) :: fs'') ++ rest)) f (by rfl) hfv,
            (ih _ hlt2).2.2 ((k2, v2) :: fs'') le_rfl (by simp) rest f hff]

/-- Round trip for one value, with any sufficient fuel. -/
theorem rtVal (v : Value) (rest : List Char) (fuel : Nat)
    (hrest : bdry rest = true) (hfuel : fsize v ≤ fuel) :
    parseVal fuel (serVal v ++ rest) = some (v, rest) :=
  (roundAux (fsize v)).1 v le_rfl rest fuel hrest hfuel

/-- The fuel a value needs is at most twice the length of its serialization
(so a fuel budget derived from the input length always suffices). -/
theorem sizeBound (N : Nat) :
    (∀ v : Value, fsize v ≤ N → fsize v ≤ 2 * (serVal v).length) ∧
    (∀ vs : List Value, fsizeL vs ≤ N → fsizeL vs ≤ 1 + 2 * (serElems vs).length) ∧
    (∀ fs : List (List Char × Value), fsizeF fs ≤ N →
      fsizeF fs ≤ 1 + 2 * (serFields fs).length) := by
  induction N using Nat.strong_induction_on with
  | _ N ih =>
    refine ⟨?_, ?_, ?_⟩
    · intro v hN
      cases v with
      | vnull => simp [fsize, serVal]
      | vbool b => cases b <;> simp [fsize, serVal]
      | vint i =>
        obtain ⟨c, t, hct, _⟩ := intChars_shape i
        simp [fsize, serVal, hct]
        omega
      | vfloat m e =>
        obtain ⟨c, t, hct, _⟩ := intChars_shape m
        simp [fsize, serVal, hct]
        omega
      | vstring s =>
        simp [fsize, serVal]
        omega
      | varray vs =>
        have hlt : fsizeL vs < N := by
          have := fsizeL_pos vs
          simp [fsize] at hN
          omega
        have hrec := (ih _ hlt).2.1 vs le_rfl
        simp [fsize, serVal]
        omega
      | vobject fs =>
        have hlt : fsizeF fs < N := by
          have := fsizeF_pos fs
          simp [fsize] at hN
          omega
        have hrec := (ih _ hlt).2.2 fs le_rfl
        simp [fsize, serVal]
        omega
    · intro vs hN
      cases vs with
      | nil => simp [fsizeL, serElems]
      | cons v1 vs' =>
        have hlt1 : fsize v1 < N := by
          have := fsizeL_pos vs'
          simp [fsizeL] at hN
          omega
        have hrec1 := (ih _ hlt1).1 v1 le_rfl
        cases vs' with
        | nil =>
          simp [fsizeL, serElems]
          omega
        | cons v2 vs'' =>
          have hlt2 : fsizeL (v2 :: vs'') < N := by
            have := fsize_pos v1
            simp [fsizeL] at hN ⊢
            omega
          have hrec2 := (ih _ hlt2).2.1 (v2 :: vs'') le_rfl
          simp [fsizeL, serElems] at hrec2 ⊢
          omega
    · intro fs hN
      cases fs with
      | nil => simp [fsizeF, serFields]
      | cons kv fs' =>
        obtain ⟨k, v1⟩ := kv
        have hlt1 : fsize v1 < N := by
          have := fsizeF_pos fs'
          simp [fsizeF] at hN
          omega
        have hrec1 := (ih _ hlt1).1 v1 le_rfl
        cases fs' with
        | nil =>
          simp [fsizeF, serFields]
          omega
        | cons kv2 fs'' =>
          obtain ⟨k2, v2⟩ := kv2
          have hlt2 : fsizeF ((k2, v2) :: fs'') < N := by
            have := fsize_pos v1
            simp [fsizeF] at hN ⊢
            omega
          have hrec2 := (ih _ hlt2).2.2 ((k2, v2) :: fs'') le_rfl
          simp [fsizeF, serFields] at hrec2 ⊢
          omega

/-- Claim C5: serializing any object `Value` tree with
`varlink_object_to_json` and parsing the produced text back with
`varlink_object_new_from_json` reproduces the original tree exactly — object
field order and array element order included, since the tree is recovered up
to equality of the ordered representation. -/
theorem claim5_json_round_trip (object : VObject) :
    varlink_object_new_from_json (varlink_object_to_json object) = some object := by
  unfold varlink_object_new_from_json varlink_object_to_json
  have hb : fsize (.vobject object) ≤
      2 * (serVal (.vobject object)).length + 2 := by
    have := (sizeBound (fsize (.vobject object))).1 (.vobject object) le_rfl
    omega
  have h := rtVal (.vobject object) [] (2 * (serVal (.vobject object)).length + 2)
    rfl hb
  rw [List.append_nil] at h
  rw [h]
